import Mathlib

/-!
Verification of the host-communication and state-synchronization layer of the
log `output-react` view (files `src/log/output-react/src/treebuild/vscodeComm.ts`
and the content-ingestion controller module).

The TypeScript sources are shallowly embedded: module-level mutable state
(`_lastMessageId`, `msgIdToSeq`, `_globalState`, the active-run options, the
tree builder slot) becomes explicit state passed to and returned from pure
Lean functions, and observable calls to external collaborators
(`saveTreeState`, the tree-builder methods, `postMessage`) become an emitted
trace of effects.  JavaScript `undefined` becomes `Option.none`.
-/

/-- `IRequestMessage` from vscodeComm.ts: `{type:'request', seq, command}`.
The `type` tag is fixed by the interface and elided. -/
structure IRequestMessage where
  seq : Nat
  command : String
deriving DecidableEq, Repr

/-- `IResponseMessage` from vscodeComm.ts:
`{type:'response', seq, command, request_seq, body?}`.
`body` is optional (`body?: any`); `none` embeds JS `undefined`. -/
structure IResponseMessage where
  type : String
  seq : Nat
  command : String
  request_seq : Nat
  body : Option String
deriving DecidableEq, Repr

/-- `IEventMessage` from vscodeComm.ts: `{type:'event', seq, event, data?}`. -/
structure IEventMessage where
  seq : Nat
  event : String
  data : Option String
deriving DecidableEq, Repr

/-- The module-level counter `_lastMessageId` starts at 0
(`let _lastMessageId = 0;`). -/
def lastMessageIdInit : Nat := 0

/-- `nextMessageSeq` from vscodeComm.ts:
`_lastMessageId += 1; return _lastMessageId;`.
Input is the current value of the module counter `_lastMessageId`; the result
is the pair (returned value, new counter value). -/
def nextMessageSeq (c : Nat) : Nat × Nat :=
  (c + 1, c + 1)

/-- The pending-request registry `msgIdToSeq` of vscodeComm.ts maps a
request `seq` to the `resolve` function of the promise returned for it.
We embed it as the set of sequence numbers currently holding a resolver;
the resolver itself is opaque (it is only ever invoked with the full
response message, which we return as the "resolution" of a dispatch). -/
def MsgIdToSeq : Type := Nat → Bool

/-- Mutable state of the vscodeComm module: the `_lastMessageId` counter,
the `msgIdToSeq` pending registry, the host binding (`vscode`, `some` host
storage when connected / `none` standalone) and `_globalState`.  The host's
storage cell models what `vscodeRef.getState()` returns. -/
structure IStateJS where
  filterLevel : Option String
  runIdToTreeState : Option (List (String × String))
  runIdLRU : Option (List String)
deriving DecidableEq, Repr

/-- Initial `_globalState`:
`{ filterLevel: 'PASS', runIdToTreeState: {}, runIdLRU: [] }`. -/
def globalStateInit : IStateJS :=
  { filterLevel := some "PASS", runIdToTreeState := some [], runIdLRU := some [] }

/-- `sendRequestToClient` from vscodeComm.ts, no-host branch (the `vscode`
binding is `undefined`, i.e. the html was opened outside the host): it
synthesizes `{type:'response', seq: nextMessageSeq(), command: message.command,
request_seq: message.seq, body: undefined}` and resolves the returned promise
with it immediately (the executor calls `resolve` synchronously, exactly
once).  Input: the message and the `_lastMessageId` counter; output: the
single resolved response and the new counter. -/
def sendRequestToClientNoHost (message : IRequestMessage) (c : Nat) :
    IResponseMessage × Nat :=
  let (s, c2) := nextMessageSeq c
  ({ type := "response"
     seq := s
     command := message.command
     request_seq := message.seq
     body := none }, c2)

/-- `sendRequestToClient` from vscodeComm.ts, hosted branch: records
`msgIdToSeq[message.seq] = resolve` and posts the message; the promise stays
pending (no response yet). -/
def sendRequestToClientHosted (message : IRequestMessage) (pending : MsgIdToSeq) :
    MsgIdToSeq :=
  fun k => if k = message.seq then true else pending k

/-- The `'response'` case of the `addEventListener('message', ...)` handler in
vscodeComm.ts: look up `msgIdToSeq[responseMsg.request_seq]`; if a resolver is
there, delete the entry and invoke the resolver with the full message;
otherwise do nothing.  Result: (new registry, the resolution delivered, if
any). -/
def onMessageResponse (pending : MsgIdToSeq) (m : IResponseMessage) :
    MsgIdToSeq × Option IResponseMessage :=
  if pending m.request_seq then
    (fun k => if k = m.request_seq then false else pending k, some m)
  else
    (pending, none)

/-- JS truthiness of `!x` for a field holding either `undefined` or an array:
`!undefined` is `true`; `![]` and `![...]` are `false` (arrays are truthy). -/
def jsNotOfOptArray (o : Option (List String)) : Bool :=
  o.isNone

/-- JS strict equality `b === undefined` where `b` is a boolean: a boolean
value is never `undefined`, so this is always `false`.  This embeds the
condition `!ret.runIdLRU === undefined` on line 200 of vscodeComm.ts, which
compares the *boolean* `!ret.runIdLRU` against `undefined`. -/
def jsBoolStrictEqUndefined (b : Bool) : Bool :=
  let _ := b
  false

/-- Host-side storage plus the standalone fallback `_globalState`.
`host = none` embeds standalone mode (`vscode === undefined`);
`host = some cell` embeds a connected host whose `getState()` returns
`cell` (with `none` for "nothing stored yet"). -/
structure StateStoreCtx where
  host : Option (Option IStateJS)
  globalState : IStateJS
deriving DecidableEq, Repr

/-- `getState` from vscodeComm.ts.  Hosted: take `vscodeRef.getState()`,
fall back to `_globalState` when falsy, then backfill `filterLevel` and
`runIdToTreeState` when `undefined`; the third check is the source's
`if (!ret.runIdLRU === undefined)`, which never fires (a boolean is never
strictly equal to `undefined`).  Standalone: return `_globalState`. -/
def getState (ctx : StateStoreCtx) : IStateJS :=
  match ctx.host with
  | some cell =>
    let ret := match cell with
      | none => ctx.globalState
      | some r => r
    let ret := if ret.filterLevel = none then { ret with filterLevel := some "PASS" } else ret
    let ret := if ret.runIdToTreeState = none then { ret with runIdToTreeState := some [] } else ret
    let ret := if jsBoolStrictEqUndefined (jsNotOfOptArray ret.runIdLRU) then
        { ret with runIdLRU := some [] }
      else ret
    ret
  | none => ctx.globalState

/-- `setState` from vscodeComm.ts: hosted, hand the whole object to
`vscodeRef.setState`; standalone, replace `_globalState`. -/
def setState (ctx : StateStoreCtx) (state : IStateJS) : StateStoreCtx :=
  match ctx.host with
  | some _ => { ctx with host := some (some state) }
  | none => { ctx with globalState := state }

/-! ## Content-ingestion controller (the `setContents`/`appendContents` module) -/

/-- `ISetContentsRequest` from vscodeComm.ts:
`{type:'request', command:'setContents', initialContents, runId, allRunIdsToLabel}`,
with `runId: string | undefined` and `allRunIdsToLabel: object | undefined`. -/
structure ISetContentsRequest where
  initialContents : String
  runId : Option String
  allRunIdsToLabel : Option (List (String × String))
deriving DecidableEq, Repr

/-- `IAppendContentsRequest` from vscodeComm.ts:
`{type:'request', command:'appendContents', appendContents, runId}`. -/
structure IAppendContentsRequest where
  appendContents : String
  runId : String
deriving DecidableEq, Repr

/-- The controller's only possible value for `opts.onClickReference`: the
module-local `onClickReference` function (which emits an `onClickReference`
event).  Kept as a one-constructor type so "set by `setContents`" and
"left at its previous value" stay distinguishable through the `Option`. -/
inductive ClickRefCallback where
  | onClickReferenceFn
deriving DecidableEq, Repr

/-- The active-run options object returned by `getOpts()` (module `options`):
the fields read and written by the controller.  `runId` is
`string | undefined`, `allRunIdsToLabel` is `object | undefined`,
`onClickReference` is an optional callback. -/
structure ActiveRunOptions where
  runId : Option String
  initialContents : String
  appendedContents : List String
  allRunIdsToLabel : Option (List (String × String))
  showTime : Bool
  showExpand : Bool
  onClickReference : Option ClickRefCallback
deriving DecidableEq, Repr

/-- Observable calls the controller makes on its external collaborators, in
program order: `saveTreeState()` (module `persistTree`), a write to a field
of the `getOpts()` singleton (field name recorded), `new TreeBuilder()`,
`treeBuilder.clearAndInitializeTree()`, `treeBuilder.addInitialContents()`,
`treeBuilder.onAppendedContents()`, and `sendEventToClient` (event name). -/
inductive Eff where
  | saveTreeState
  | writeOptsField (name : String)
  | newTreeBuilder
  | clearAndInitializeTree
  | addInitialContents
  | onAppendedContents
  | sendEventToClient (event : String)
deriving DecidableEq, Repr

/-- Controller module state: the `getOpts()` singleton and the module-level
`let treeBuilder: TreeBuilder | undefined` slot (`some ()` once constructed;
the builder itself is an external collaborator, opaque here). -/
structure ControllerState where
  opts : ActiveRunOptions
  treeBuilder : Option Unit
deriving DecidableEq, Repr

/-- `rebuildTreeAndStatusesFromOpts` from the controller module:
`treeBuilder = new TreeBuilder(); treeBuilder.clearAndInitializeTree();
await treeBuilder.addInitialContents();`. -/
def rebuildTreeAndStatusesFromOpts (st : ControllerState) :
    ControllerState × List Eff :=
  ({ st with treeBuilder := some () },
   [Eff.newTreeBuilder, Eff.clearAndInitializeTree, Eff.addInitialContents])

/-- `setContents` from the controller module.  `inVSCode` is the value of
`isInVSCode()` (`vscode !== undefined`).  In source order: `saveTreeState()`;
`opts.runId = msg.runId`; `opts.initialContents = msg.initialContents`;
`if (isInVSCode()) opts.onClickReference = onClickReference`;
`opts.appendedContents = []`; `opts.allRunIdsToLabel = msg.allRunIdsToLabel`;
`rebuildTreeAndStatusesFromOpts()`. -/
def setContents (msg : ISetContentsRequest) (inVSCode : Bool)
    (st : ControllerState) : ControllerState × List Eff :=
  let opts := st.opts
  let opts := { opts with runId := msg.runId }
  let opts := { opts with initialContents := msg.initialContents }
  let opts := if inVSCode then
      { opts with onClickReference := some ClickRefCallback.onClickReferenceFn }
    else opts
  let opts := { opts with appendedContents := [] }
  let opts := { opts with allRunIdsToLabel := msg.allRunIdsToLabel }
  let tr := [Eff.saveTreeState, Eff.writeOptsField "runId",
    Eff.writeOptsField "initialContents"] ++
    (if inVSCode then [Eff.writeOptsField "onClickReference"] else []) ++
    [Eff.writeOptsField "appendedContents", Eff.writeOptsField "allRunIdsToLabel"]
  let (st2, tr2) := rebuildTreeAndStatusesFromOpts { st with opts := opts }
  (st2, tr ++ tr2)

/-- `appendContents` from the controller module:
`if (opts.runId === msg.runId) { opts.appendedContents.push(msg.appendContents);
if (treeBuilder !== undefined) treeBuilder.onAppendedContents(); }`.
JS `===` between `string | undefined` and `string` embeds as
`opts.runId = some msg.runId`. -/
def appendContents (msg : IAppendContentsRequest) (st : ControllerState) :
    ControllerState × List Eff :=
  if st.opts.runId = some msg.runId then
    ({ st with opts :=
        { st.opts with appendedContents := st.opts.appendedContents ++ [msg.appendContents] } },
     (if st.treeBuilder.isSome then [Eff.onAppendedContents] else []))
  else
    (st, [])

/-! ## LRU discipline over `runIdLRU` / `runIdToTreeState` -/

/-- State shape of the persisted LRU store: the order list `runIdLRU`
(least-recently-used first, most-recently-used last) and the per-run tree
state map `runIdToTreeState` (a key mapped to `none` is absent).  Only the
shape (`_globalState` in vscodeComm.ts) is in the provided sources. -/
structure LRUState where
  runIdLRU : List String
  runIdToTreeState : String → Option String

/-- Modelled from the spec: the LRU maintenance routine for
`runIdLRU`/`runIdToTreeState` is not in the provided sources (only the state
shape `_globalState` is shown).  Following §4.3 of the spec: when a run
identifier becomes active, move it to the most-recently-used position of
`runIdLRU` (insert it if absent) and record its tree state; when the number
of distinct run identifiers exceeds the configured cap, evict the
least-recently-used identifier from both `runIdLRU` and `runIdToTreeState`. -/
def lruActivate (cap : Nat) (rid : String) (ts : String) (s : LRUState) :
    LRUState :=
  let lru1 := s.runIdLRU.erase rid ++ [rid]
  let m1 : String → Option String :=
    fun k => if k = rid then some ts else s.runIdToTreeState k
  if cap < lru1.length then
    { runIdLRU := lru1.tail
      runIdToTreeState := fun k => if lru1.head? = some k then none else m1 k }
  else
    { runIdLRU := lru1, runIdToTreeState := m1 }

/-- Well-formedness of the LRU store: `runIdLRU` has no duplicates (so each
identifier appears exactly once) and the keys of `runIdToTreeState` are
exactly the members of `runIdLRU`. -/
def LRUWF (s : LRUState) : Prop :=
  s.runIdLRU.Nodup ∧ ∀ k, (s.runIdToTreeState k).isSome ↔ k ∈ s.runIdLRU

/-! ## Theorems -/

/-- C9: every call to `nextMessageSeq` returns an integer strictly greater
than the one returned by the previous call (a call at counter state `c`
returns `c + 1` with new counter `c + 1`, so two consecutive calls return
strictly increasing values), and the first call — from the initial counter
value `_lastMessageId = 0` — returns 1. -/
theorem nextMessageSeq_strictly_increasing_from_one :
    (∀ c : Nat, (nextMessageSeq ((nextMessageSeq c).2)).1 > (nextMessageSeq c).1) ∧
    (nextMessageSeq lastMessageIdInit).1 = 1 := by
  constructor
  · intro c
    simp [nextMessageSeq]
  · rfl

/-- C1: with no host binding, `sendRequestToClient` resolves the returned
promise exactly once (the embedding returns the single response value the
executor passes to `resolve`), with `type = 'response'`, `command` equal to
the request's command, `request_seq` equal to the request's `seq`,
`body = undefined`, and a `seq` freshly allocated from the global counter;
concretely, a request whose own `seq` was drawn from a fresh counter
(`{seq:1, command:'setContents'}`) yields
`{type:'response', seq:2, command:'setContents', request_seq:1, body:undefined}`. -/
theorem sendRequestToClientNoHost_synthesizes_response
    (m : IRequestMessage) (c : Nat) :
    (sendRequestToClientNoHost m c).1.type = "response" ∧
    (sendRequestToClientNoHost m c).1.command = m.command ∧
    (sendRequestToClientNoHost m c).1.request_seq = m.seq ∧
    (sendRequestToClientNoHost m c).1.body = none ∧
    (sendRequestToClientNoHost m c).1.seq = (nextMessageSeq c).1 ∧
    (sendRequestToClientNoHost m c).2 = (nextMessageSeq c).2 ∧
    sendRequestToClientNoHost
        { seq := (nextMessageSeq lastMessageIdInit).1, command := "setContents" }
        (nextMessageSeq lastMessageIdInit).2 =
      ({ type := "response", seq := 2, command := "setContents",
         request_seq := 1, body := none }, 2) := by
  exact ⟨rfl, rfl, rfl, rfl, rfl, rfl, by decide⟩

/-- C7: the `'response'` case of the message listener drops a response whose
`request_seq` has no pending entry: the registry is unchanged, no resolver is
invoked, and nothing is thrown (the function is total); entries under other
sequence numbers are never touched by any dispatch; and handling the same
`request_seq` a second time never resolves anything again (the matching entry
is deleted on first resolution), so each request's promise resolves at most
once. -/
theorem onMessageResponse_unmatched_dropped
    (pending : MsgIdToSeq) (m : IResponseMessage) :
    (pending m.request_seq = false → onMessageResponse pending m = (pending, none)) ∧
    (∀ k, k ≠ m.request_seq → (onMessageResponse pending m).1 k = pending k) ∧
    (onMessageResponse (onMessageResponse pending m).1 m).2 = none := by
  refine ⟨fun h => ?_, fun k hk => ?_, ?_⟩
  · simp [onMessageResponse, h]
  · unfold onMessageResponse
    by_cases hp : pending m.request_seq <;> simp [hp, hk]
  · unfold onMessageResponse
    by_cases hp : pending m.request_seq <;> simp [hp]

/-- Witness for C7 at a concrete registry ({5} pending) and a response with
`request_seq = 3` (unmatched). -/
theorem onMessageResponse_unmatched_dropped_witness :
    onMessageResponse (fun k => k == 5)
      { type := "response", seq := 9, command := "c", request_seq := 3, body := none } =
    ((fun k => k == 5), none) :=
  (onMessageResponse_unmatched_dropped (fun k => k == 5)
    { type := "response", seq := 9, command := "c", request_seq := 3, body := none }).1
    (by decide)

/-- C3: an `appendContents` message whose `runId` differs from the active
run id is a no-op: the controller state (including `appendedContents`) is
unchanged and no collaborator call (in particular no `onAppendedContents`)
is made; the function is total, so no error is raised. -/
theorem appendContents_stale_run_noop
    (msg : IAppendContentsRequest) (st : ControllerState)
    (h : st.opts.runId ≠ some msg.runId) :
    appendContents msg st = (st, []) := by
  simp [appendContents, h]

/-- Witness for C3: active run "B", message for run "A". -/
theorem appendContents_stale_run_noop_witness :
    appendContents { appendContents := "x", runId := "A" }
      { opts := { runId := some "B", initialContents := "", appendedContents := [],
                  allRunIdsToLabel := none, showTime := false, showExpand := false,
                  onClickReference := none },
        treeBuilder := some () } =
      ({ opts := { runId := some "B", initialContents := "", appendedContents := [],
                   allRunIdsToLabel := none, showTime := false, showExpand := false,
                   onClickReference := none },
         treeBuilder := some () }, []) :=
  appendContents_stale_run_noop _ _ (by decide)

/-- C10: an `appendContents` message for the active run while `treeBuilder`
is still `undefined` appends the chunk to `appendedContents`, makes no
tree-builder notification, and throws nothing (the function is total). -/
theorem appendContents_active_run_no_builder
    (msg : IAppendContentsRequest) (st : ControllerState)
    (h1 : st.opts.runId = some msg.runId) (h2 : st.treeBuilder = none) :
    appendContents msg st =
      ({ st with opts :=
          { st.opts with
            appendedContents := st.opts.appendedContents ++ [msg.appendContents] } },
       []) := by
  simp [appendContents, h1, h2]

/-- Witness for C10: active run "A", message for run "A", no builder yet. -/
theorem appendContents_active_run_no_builder_witness :
    appendContents { appendContents := "x", runId := "A" }
      { opts := { runId := some "A", initialContents := "", appendedContents := ["c0"],
                  allRunIdsToLabel := none, showTime := false, showExpand := false,
                  onClickReference := none },
        treeBuilder := none } =
      ({ opts := { runId := some "A", initialContents := "", appendedContents := ["c0", "x"],
                   allRunIdsToLabel := none, showTime := false, showExpand := false,
                   onClickReference := none },
         treeBuilder := none }, []) :=
  appendContents_active_run_no_builder
    { appendContents := "x", runId := "A" }
    { opts := { runId := some "A", initialContents := "", appendedContents := ["c0"],
                allRunIdsToLabel := none, showTime := false, showExpand := false,
                onClickReference := none },
      treeBuilder := none } (by decide) (by decide)

/-- C8: `setState` followed by `getState` returns a state equal to the one
stored, both hosted and standalone, for every state whose required fields
`filterLevel` and `runIdToTreeState` are present (as the `IState` interface
requires); note `runIdLRU` may even be absent, since no backfill ever
touches it. -/
theorem setState_getState_roundtrip (ctx : StateStoreCtx) (s : IStateJS)
    (h1 : s.filterLevel ≠ none) (h2 : s.runIdToTreeState ≠ none) :
    getState (setState ctx s) = s := by
  obtain ⟨host, g⟩ := ctx
  cases host <;> simp [setState, getState, h1, h2, jsBoolStrictEqUndefined]

/-- Witness for C8: a fully-populated state round-trips through a hosted
store. -/
theorem setState_getState_roundtrip_witness :
    getState (setState { host := some none, globalState := globalStateInit }
      { filterLevel := some "FAIL", runIdToTreeState := some [("r1", "t1")],
        runIdLRU := some ["r1"] }) =
      { filterLevel := some "FAIL", runIdToTreeState := some [("r1", "t1")],
        runIdLRU := some ["r1"] } :=
  setState_getState_roundtrip { host := some none, globalState := globalStateInit }
    { filterLevel := some "FAIL", runIdToTreeState := some [("r1", "t1")],
      runIdLRU := some ["r1"] } (by decide) (by decide)

/-- C2: every `setContents` call (in particular one for run B after run A
was active) invokes the external `saveTreeState` collaborator exactly once,
as the very first observable action — before any write to the active-run
options — and afterwards performs exactly one full rebuild: a fresh
`TreeBuilder` is constructed, then `clearAndInitializeTree`, then
`addInitialContents`, as the final three actions, with only option-field
writes in between; no `onAppendedContents` (incremental-append) notification
is ever issued. -/
theorem setContents_saves_then_rebuilds
    (msg : ISetContentsRequest) (inVSCode : Bool) (st : ControllerState) :
    (setContents msg inVSCode st).2.head? = some Eff.saveTreeState ∧
    (setContents msg inVSCode st).2.count Eff.saveTreeState = 1 ∧
    (setContents msg inVSCode st).2.count Eff.newTreeBuilder = 1 ∧
    (setContents msg inVSCode st).2.count Eff.clearAndInitializeTree = 1 ∧
    (setContents msg inVSCode st).2.count Eff.addInitialContents = 1 ∧
    (setContents msg inVSCode st).2.count Eff.onAppendedContents = 0 ∧
    (∃ writes : List String,
      (setContents msg inVSCode st).2 =
        Eff.saveTreeState :: writes.map Eff.writeOptsField ++
          [Eff.newTreeBuilder, Eff.clearAndInitializeTree, Eff.addInitialContents]) := by
  cases inVSCode
  · have h : (setContents msg false st).2 =
        [Eff.saveTreeState, Eff.writeOptsField "runId",
         Eff.writeOptsField "initialContents", Eff.writeOptsField "appendedContents",
         Eff.writeOptsField "allRunIdsToLabel", Eff.newTreeBuilder,
         Eff.clearAndInitializeTree, Eff.addInitialContents] := rfl
    rw [h]
    exact ⟨rfl, by decide, by decide, by decide, by decide, by decide,
      ⟨["runId", "initialContents", "appendedContents", "allRunIdsToLabel"], rfl⟩⟩
  · have h : (setContents msg true st).2 =
        [Eff.saveTreeState, Eff.writeOptsField "runId",
         Eff.writeOptsField "initialContents", Eff.writeOptsField "onClickReference",
         Eff.writeOptsField "appendedContents", Eff.writeOptsField "allRunIdsToLabel",
         Eff.newTreeBuilder, Eff.clearAndInitializeTree, Eff.addInitialContents] := rfl
    rw [h]
    exact ⟨rfl, by decide, by decide, by decide, by decide, by decide,
      ⟨["runId", "initialContents", "onClickReference", "appendedContents",
        "allRunIdsToLabel"], rfl⟩⟩

/-- C4 counterexample: `setContents` does not replace the options wholesale —
`showTime` (set to `true` while run A was active) is still `true` after
`setContents` switches to run B, while from an otherwise identical state with
`showTime = false` it stays `false`: the field's value is carried over from
the previously active run, contradicting "no field ... retains a value
carried over". -/
theorem setContents_showTime_carried_over :
    ((setContents { initialContents := "bB", runId := some "B", allRunIdsToLabel := none }
        true
        { opts := { runId := some "A", initialContents := "aA", appendedContents := ["k"],
                    allRunIdsToLabel := none, showTime := true, showExpand := true,
                    onClickReference := none },
          treeBuilder := some () }).1.opts.showTime = true) ∧
    ((setContents { initialContents := "bB", runId := some "B", allRunIdsToLabel := none }
        true
        { opts := { runId := some "A", initialContents := "aA", appendedContents := ["k"],
                    allRunIdsToLabel := none, showTime := false, showExpand := true,
                    onClickReference := none },
          treeBuilder := some () }).1.opts.showTime = false) := by
  decide

/-- C4 amended: `setContents` replaces the run-scoped fields — afterwards
`runId`, `initialContents` and `allRunIdsToLabel` equal the message's fields
and `appendedContents` is empty — and sets the cross-reference callback when
a host is present; but `showTime`, `showExpand` and (outside a host) the
cross-reference callback retain their previous values. -/
theorem setContents_replaces_run_fields
    (msg : ISetContentsRequest) (inVSCode : Bool) (st : ControllerState) :
    (setContents msg inVSCode st).1.opts.runId = msg.runId ∧
    (setContents msg inVSCode st).1.opts.initialContents = msg.initialContents ∧
    (setContents msg inVSCode st).1.opts.allRunIdsToLabel = msg.allRunIdsToLabel ∧
    (setContents msg inVSCode st).1.opts.appendedContents = [] ∧
    (setContents msg inVSCode st).1.opts.showTime = st.opts.showTime ∧
    (setContents msg inVSCode st).1.opts.showExpand = st.opts.showExpand ∧
    (setContents msg inVSCode st).1.opts.onClickReference =
      (if inVSCode then some ClickRefCallback.onClickReferenceFn
       else st.opts.onClickReference) := by
  cases inVSCode <;>
    exact ⟨rfl, rfl, rfl, rfl, rfl, rfl, rfl⟩

/-- C5: code bug — with a host present whose stored state lacks `runIdLRU`
(other fields populated), `getState` returns the state with `runIdLRU` still
missing rather than backfilled to the empty list: the source's check
`if (!ret.runIdLRU === undefined)` compares the boolean `!ret.runIdLRU`
against `undefined`, which is always false, so the backfill branch never
executes. -/
theorem getState_runIdLRU_never_backfilled :
    (getState
      { host := some (some { filterLevel := some "PASS", runIdToTreeState := some [],
                             runIdLRU := none }),
        globalState := globalStateInit }).runIdLRU = none := by
  decide

/-- C6: the LRU discipline (modelled from the spec, §4.3): activating a run
id under a cap of at least 1, from a well-formed store within the cap, keeps
the store well-formed (each id exactly once in `runIdLRU`, keys of
`runIdToTreeState` exactly its members), places the activated id at the
most-recently-used position, never evicts the active id (it stays in the
list and keeps a map entry), keeps the store within the cap, and — when a
fresh id is activated at capacity — evicts exactly the least-recently-used
id from both `runIdLRU` and `runIdToTreeState`. -/
theorem lruActivate_lru_discipline (cap : Nat) (rid ts : String) (s : LRUState)
    (hcap : 1 ≤ cap) (hwf : LRUWF s) (hlen : s.runIdLRU.length ≤ cap) :
    LRUWF (lruActivate cap rid ts s) ∧
    (lruActivate cap rid ts s).runIdLRU.getLast? = some rid ∧
    rid ∈ (lruActivate cap rid ts s).runIdLRU ∧
    ((lruActivate cap rid ts s).runIdToTreeState rid).isSome ∧
    (lruActivate cap rid ts s).runIdLRU.length ≤ cap ∧
    (rid ∉ s.runIdLRU → s.runIdLRU.length = cap →
      (lruActivate cap rid ts s).runIdLRU = s.runIdLRU.tail ++ [rid] ∧
      ∀ v, s.runIdLRU.head? = some v →
        (lruActivate cap rid ts s).runIdToTreeState v = none ∧
        v ∉ (lruActivate cap rid ts s).runIdLRU) := by
  obtain ⟨hnd, hm⟩ := hwf
  have hrid_not_e : rid ∉ s.runIdLRU.erase rid := hnd.not_mem_erase
  have hnd_e : (s.runIdLRU.erase rid).Nodup := hnd.erase rid
  have hnd1 : (s.runIdLRU.erase rid ++ [rid]).Nodup := by
    rw [List.nodup_append]
    refine ⟨hnd_e, List.nodup_singleton rid, ?_⟩
    intro a ha hb
    rw [List.mem_singleton] at hb
    subst hb
    exact hrid_not_e ha
  have hmem1 : ∀ k, k ∈ s.runIdLRU.erase rid ++ [rid] ↔ k = rid ∨ k ∈ s.runIdLRU := by
    intro k
    rw [List.mem_append, List.mem_singleton, hnd.mem_erase_iff]
    constructor
    · rintro (⟨_, hk⟩ | h)
      · exact Or.inr hk
      · exact Or.inl h
    · rintro (h | hk)
      · exact Or.inr h
      · by_cases hk2 : k = rid
        · exact Or.inr hk2
        · exact Or.inl ⟨hk2, hk⟩
  have hlen_e : (s.runIdLRU.erase rid).length ≤ s.runIdLRU.length :=
    (List.erase_sublist rid s.runIdLRU).length_le
  by_cases hc : cap < (s.runIdLRU.erase rid ++ [rid]).length
  · -- eviction branch
    rcases he : s.runIdLRU.erase rid with _ | ⟨v, t⟩
    · exfalso
      rw [he] at hc
      simp at hc
      omega
    · rw [he] at hc hnd1 hmem1 hrid_not_e hlen_e
      simp only [List.cons_append, List.nodup_cons] at hnd1
      obtain ⟨hv_not, hnd_rest⟩ := hnd1
      simp only [List.cons_append, List.mem_cons] at hmem1
      rw [List.mem_cons] at hrid_not_e
      push_neg at hrid_not_e
      obtain ⟨hrid_ne_v, _⟩ := hrid_not_e
      have hL : (lruActivate cap rid ts s).runIdLRU = t ++ [rid] := by
        simp only [lruActivate]
        rw [he, if_pos hc]
        simp
      have hM : ∀ k, (lruActivate cap rid ts s).runIdToTreeState k =
          if v = k then none
          else if k = rid then some ts else s.runIdToTreeState k := by
        intro k
        simp only [lruActivate]
        rw [he, if_pos hc]
        simp [List.cons_append]
      refine ⟨⟨?_, ?_⟩, ?_, ?_, ?_, ?_, ?_⟩
      · rw [hL]; exact hnd_rest
      · intro k
        rw [hM k, hL]
        by_cases hkv : v = k
        · subst hkv
          simp [hv_not]
        · rw [if_neg hkv]
          have hiff : k ∈ t ++ [rid] ↔ (k = rid ∨ k ∈ s.runIdLRU) := by
            constructor
            · intro h
              exact (hmem1 k).mp (Or.inr h)
            · intro h
              rcases (hmem1 k).mpr h with h1 | h2
              · exact absurd h1.symm hkv
              · exact h2
          rw [hiff]
          by_cases hkr : k = rid
          · subst hkr
            simp
          · rw [if_neg hkr, hm k]
            constructor
            · exact Or.inr
            · rintro (h | h)
              · exact absurd h hkr
              · exact h
      · rw [hL]; exact List.getLast?_concat t
      · rw [hL]
        exact List.mem_append_right t (List.mem_singleton_self rid)
      · rw [hM rid, if_neg (fun h => hrid_ne_v h.symm), if_pos rfl]
        rfl
      · rw [hL]
        simp only [List.length_append, List.length_singleton]
        simp only [List.length_cons] at hlen_e
        omega
      · intro h1 _
        have he2 : s.runIdLRU.erase rid = s.runIdLRU := List.erase_of_not_mem h1
        have hls : s.runIdLRU = v :: t := by rw [← he2, he]
        refine ⟨?_, ?_⟩
        · rw [hL, hls]
          rfl
        · intro w hw
          rw [hls] at hw
          simp only [List.head?_cons, Option.some.injEq] at hw
          subst hw
          refine ⟨?_, ?_⟩
          · rw [hM v, if_pos rfl]
          · rw [hL]; exact hv_not
  · -- no eviction
    have hL : (lruActivate cap rid ts s).runIdLRU = s.runIdLRU.erase rid ++ [rid] := by
      simp only [lruActivate]
      rw [if_neg hc]
    have hM : ∀ k, (lruActivate cap rid ts s).runIdToTreeState k =
        if k = rid then some ts else s.runIdToTreeState k := by
      intro k
      simp only [lruActivate]
      rw [if_neg hc]
    refine ⟨⟨?_, ?_⟩, ?_, ?_, ?_, ?_, ?_⟩
    · rw [hL]; exact hnd1
    · intro k
      rw [hM k, hL, hmem1 k]
      by_cases hkr : k = rid
      · subst hkr
        simp
      · rw [if_neg hkr, hm k]
        constructor
        · exact Or.inr
        · rintro (h | h)
          · exact absurd h hkr
          · exact h
    · rw [hL]; exact List.getLast?_concat _
    · rw [hL]
      exact List.mem_append_right _ (List.mem_singleton_self rid)
    · rw [hM rid, if_pos rfl]
      rfl
    · rw [hL]
      rw [Nat.not_lt] at hc
      exact hc
    · intro h1 h2
      exfalso
      have he2 : s.runIdLRU.erase rid = s.runIdLRU := List.erase_of_not_mem h1
      rw [he2, List.length_append, List.length_singleton] at hc
      omega

/-- Witness for C6: activating "r" in the empty well-formed store under
cap 2 leaves it at the most-recently-used position. -/
theorem lruActivate_lru_discipline_witness :
    (lruActivate 2 "r" "t" ⟨[], fun _ => none⟩).runIdLRU.getLast? = some "r" :=
  (lruActivate_lru_discipline 2 "r" "t" ⟨[], fun _ => none⟩ (by decide)
    ⟨List.nodup_nil, fun k => by simp⟩ (by decide)).2.1
